import Mathlib

/-!
Verification of the KVideo multi-source search-and-verify pipeline and its
client-side stores, shallowly embedded from the TypeScript sources.
-/

namespace KVideo

/-! ## JavaScript string primitives

Executable models of the JavaScript string methods the sources use.
`String.prototype.trim` removes leading and trailing whitespace;
`String.prototype.split(sep)` with a one-character separator cuts the string
at every occurrence of the separator (yielding one piece even for the empty
string). Both are modelled by structural recursion on the character list so
that concrete runs reduce inside the kernel. -/

/-- Model of JS `String.prototype.trim`: drop leading and trailing whitespace. -/
def jsTrim (s : String) : String :=
  ⟨((s.data.dropWhile Char.isWhitespace).reverse.dropWhile Char.isWhitespace).reverse⟩

/-- Model of JS `String.prototype.split(sep)` for a one-character separator,
on character lists: `"" → [""]`, and each separator occurrence ends a piece. -/
def jsSplitChars (sep : Char) : List Char → List (List Char)
  | [] => [[]]
  | c :: rest =>
    if c = sep then [] :: jsSplitChars sep rest
    else
      match jsSplitChars sep rest with
      | [] => [[c]]
      | piece :: pieces => (c :: piece) :: pieces

/-- Model of JS `String.prototype.split(sep)` for a one-character separator. -/
def jsSplit (sep : Char) (s : String) : List String :=
  (jsSplitChars sep s.data).map (fun cs => ⟨cs⟩)

/-! ## Search history store (src/lib/store/search-history-store.ts, lines 9-70) -/

/-- `MAX_SEARCH_HISTORY` from search-history-store.ts. -/
def MAX_SEARCH_HISTORY : Nat := 20

/-- `SearchHistoryItem` from search-history-store.ts; `timestamp` is the
`Date.now()` millisecond value, modelled as a `Nat` supplied by the caller. -/
structure SearchHistoryItem where
  query : String
  timestamp : Nat
deriving DecidableEq, Repr

/-- `addSearchHistory` from search-history-store.ts: trim the query, ignore it
when the trim is empty, otherwise drop earlier entries with the same query,
cons the new entry and keep at most `MAX_SEARCH_HISTORY` entries (the source's
`trimmedQuery` local is inlined). -/
def addSearchHistory (q : String) (now : Nat)
    (history : List SearchHistoryItem) : List SearchHistoryItem :=
  if jsTrim q = "" then history
  else
    (⟨jsTrim q, now⟩ :: history.filter (fun item => item.query ≠ jsTrim q)).take
      MAX_SEARCH_HISTORY

/-- `removeSearchHistory` from search-history-store.ts. -/
def removeSearchHistory (q : String)
    (history : List SearchHistoryItem) : List SearchHistoryItem :=
  history.filter (fun item => item.query ≠ q)

/-- `clearSearchHistory` from search-history-store.ts. -/
def clearSearchHistory (_history : List SearchHistoryItem) : List SearchHistoryItem :=
  []

/-- One call into the store's mutating interface. -/
inductive HistoryOp where
  | add (q : String) (now : Nat)
  | remove (q : String)
  | clear
deriving DecidableEq, Repr

def applyHistoryOp (s : List SearchHistoryItem) : HistoryOp → List SearchHistoryItem
  | .add q now => addSearchHistory q now s
  | .remove q => removeSearchHistory q s
  | .clear => clearSearchHistory s

/-- The store state after a sequence of operations, starting from the initial
`searchHistory: []`. -/
def runHistoryOps (ops : List HistoryOp) : List SearchHistoryItem :=
  ops.foldl applyHistoryOp []

/-- The store invariant: at most `MAX_SEARCH_HISTORY` entries, no two entries
with the same query. -/
def HistoryInv (s : List SearchHistoryItem) : Prop :=
  s.length ≤ MAX_SEARCH_HISTORY ∧ (s.map (fun item => item.query)).Nodup

/-! ## Episode parsing (src/unnamed/part_000, lines 91-112, `parseEpisodes`) -/

/-- `Episode` from lib/types as parseEpisodes builds it. -/
structure Episode where
  name : String
  url : String
  index : Nat
deriving DecidableEq, Repr

/-- The JS global regex replace `url.replace(/([^:])\/\//g, ...)`: a left-to-
right scan; a non-colon character followed by two slashes becomes the
character and one slash, and scanning resumes after the matched text. -/
def cleanUrlChars : List Char → List Char
  | [] => []
  | [c] => [c]
  | [c, d] => [c, d]
  | c :: d :: e :: rest =>
    if c ≠ ':' ∧ d = '/' ∧ e = '/' then c :: '/' :: cleanUrlChars rest
    else c :: cleanUrlChars (d :: e :: rest)

def cleanUrl (s : String) : String := ⟨cleanUrlChars s.data⟩

/-- `parseEpisodes` from the API response parsers: split on `#`, drop empty
segments, and for each segment take the text around the first `$` as name and
url (`const [name, url] = episode.split($)` reads fields 0 and 1 of the
split), with the empty-name fallback and the double-slash cleanup. -/
def parseEpisodes (playUrl : String) : List Episode :=
  if playUrl = "" then []
  else
    ((jsSplit '#' playUrl).filter (fun seg => seg ≠ "")).mapIdx (fun index episode =>
      let parts := jsSplit '$' episode
      let name := parts.headD ""
      let url := (parts.get? 1).getD ""
      { name := if name = "" then "Episode " ++ toString (index + 1) else name
        url := cleanUrl url
        index := index })

/-- The url text C10 describes: the whole text after the first `$` of the
segment, the empty string when the segment has no `$`. -/
def claimedUrlText (episode : String) : String :=
  match jsSplit '$' episode with
  | [] => ""
  | [_] => ""
  | _ :: rest => String.intercalate "$" rest

/-- `parseEpisodes` as C10 states it, with the url read as all the text after
the first `$`. -/
def parseEpisodesClaimed (playUrl : String) : List Episode :=
  if playUrl = "" then []
  else
    ((jsSplit '#' playUrl).filter (fun seg => seg ≠ "")).mapIdx (fun index episode =>
      let nameText := (jsSplit '$' episode).headD ""
      { name := if nameText = "" then "Episode " ++ toString (index + 1) else nameText
        url := cleanUrl (claimedUrlText episode)
        index := index })

/-- `parseEpisodes` as amended: the url is the text between the first and the
second `$` of the segment (field 1 of the `$`-split, empty when there is no
`$`), everything else as the claim states it. -/
def parseEpisodesAmended (playUrl : String) : List Episode :=
  if playUrl = "" then []
  else
    ((jsSplit '#' playUrl).filter (fun seg => seg ≠ "")).enum.map (fun p =>
      let fields := jsSplit '$' p.2
      let nameText := fields.headD ""
      { name := if nameText = "" then "Episode " ++ toString (p.1 + 1) else nameText
        url := cleanUrl ((fields.get? 1).getD "")
        index := p.1 })

/-! ## Search API data model (src/unnamed/part_002, POST handler)

The handler's collaborators `searchVideos` (lib/api/client) and
`checkMultipleVideos` (lib/utils/source-checker) are not among the staged
files, so `POST` takes them as function parameters; concrete runs instantiate
them with definitions modelled from the spec (see below). -/

/-- A candidate video item. Identity is the (source, vod_id) pair; the other
fields of the JSON object (title, poster, play urls, ...) play no part in the
claims and are omitted. -/
structure Video where
  vod_id : String
  source : String
deriving DecidableEq, Repr

/-- `SearchResult` from lib/types: one source's contribution, as
`searchVideos` returns it (absent `responseTime` for a failed source). -/
structure SearchResultEntry where
  source : String
  results : List Video
  responseTime : Option Nat
deriving DecidableEq, Repr

/-- One entry of the response's `sourceStats`. -/
structure SourceStat where
  sourceId : String
  sourceName : String
  count : Nat
deriving DecidableEq, Repr

/-- A request-level JSON value. Arrays are modelled as arrays of strings: the
only arrays the handler reads are source-id lists, and a non-string id is no
different from an unknown one (neither resolves). -/
inductive JValue where
  | jnull
  | jbool (b : Bool)
  | jnum (n : Int)
  | jstr (s : String)
  | jarr (elems : List String)
deriving DecidableEq, Repr

/-- The parsed request body `{ query, sources, page = 1 }`; a missing `page`
is the default 1 of the destructuring. -/
structure RequestBody where
  query : Option JValue
  sources : Option JValue
  page : Nat
deriving DecidableEq, Repr

/-- A POST request: either `request.json()` succeeds with a body, or it (or a
collaborator) throws and the outer catch answers with status 500; `msg` is
the thrown error's message. -/
inductive Request where
  | parseFail (msg : String)
  | ok (body : RequestBody)
deriving DecidableEq, Repr

/-- JS truthiness of the value (`undefined`, `null`, `false`, `0` and the
empty string are falsy; objects and arrays are truthy). -/
def isFalsy : Option JValue → Bool
  | none => true
  | some .jnull => true
  | some (.jbool b) => !b
  | some (.jnum n) => n == 0
  | some (.jstr s) => s == ""
  | some (.jarr _) => false

def isJStr : Option JValue → Bool
  | some (.jstr _) => true
  | _ => false

def jstrValue : Option JValue → String
  | some (.jstr s) => s
  | _ => ""

def isJArr : Option JValue → Bool
  | some (.jarr _) => true
  | _ => false

def jarrValue : Option JValue → List String
  | some (.jarr xs) => xs
  | _ => []

/-- The first validation: `!query || typeof query !== 'string' ||
query.trim().length === 0`. -/
def queryInvalid (q : Option JValue) : Bool :=
  isFalsy q || !isJStr q || jsTrim (jstrValue q) == ""

/-- The second validation: `!sourceIds || !Array.isArray(sourceIds) ||
sourceIds.length === 0`. -/
def sourcesInvalid (s : Option JValue) : Bool :=
  isFalsy s || !isJArr s || (jarrValue s).isEmpty

/-- `SOURCE_IDS` from lib/utils/source-names (src/unnamed/part_000). -/
def SOURCE_IDS : List String :=
  ["dytt", "ruyi", "baofeng", "tianya", "feifan", "sanliuling",
   "wolong", "jisu", "mozhua", "modu", "zuida", "yinghua",
   "baiduyun", "wujin", "wangwang", "ikun"]

/-- The `sourceNames` record of the handler's `getSourceName`. -/
def sourceNameTable : List (String × String) :=
  [("dytt", "电影天堂"), ("ruyi", "如意"), ("baofeng", "暴风"),
   ("tianya", "天涯"), ("feifan", "非凡影视"), ("sanliuling", "360"),
   ("wolong", "卧龙"), ("jisu", "极速"), ("mozhua", "魔爪"),
   ("modu", "魔都"), ("zuida", "最大"), ("yinghua", "樱花"),
   ("baiduyun", "百度云"), ("wujin", "无尽"), ("wangwang", "旺旺"),
   ("ikun", "iKun")]

/-- `getSourceName` from the handler (also lib/utils/source-names):
`sourceNames[sourceId] || sourceId`; every configured name is non-empty, so
the fallback fires exactly for unknown ids. -/
def getSourceName (sourceId : String) : String :=
  match sourceNameTable.find? (fun p => p.1 == sourceId) with
  | some p => p.2
  | none => sourceId

/-- The source registry's descriptor: id and display name. -/
structure Source where
  id : String
  name : String
deriving DecidableEq, Repr

/-- Modelled from the spec: `getSourceById(id) → SourceDescriptor | absent`,
the source-registry lookup of lib/api/video-sources, which is not among the
staged files. The registry holds exactly the configured `SOURCE_IDS`. -/
def getSourceById (id : String) : Option Source :=
  if SOURCE_IDS.contains id then some ⟨id, getSourceName id⟩ else none

/-- One step of the handler's grouping loop: JS `Map.get/set` with `push`,
keyed by `video.source` (a new key is appended, an existing key's list grows
at the end). -/
def insertGrouped (m : List (String × List Video)) (v : Video) :
    List (String × List Video) :=
  if m.any (fun p => p.1 == v.source) then
    m.map (fun p => if p.1 == v.source then (p.1, p.2 ++ [v]) else p)
  else m ++ [(v.source, [v])]

/-- `videosBySource`: the grouping loop over `availableVideos`, entries in
first-seen order as `Array.from(map.entries())` yields them. -/
def groupBySource (vs : List Video) : List (String × List Video) :=
  vs.foldl insertGrouped []

/-- `videosBySource.get(sourceId)?.length || 0`. -/
def groupCount (m : List (String × List Video)) (sid : String) : Nat :=
  ((m.find? (fun p => p.1 == sid)).map (fun p => p.2.length)).getD 0

/-- The handler's response as NextResponse.json builds it, plus two effect
flags recording whether the search and the availability check ran. -/
structure HandlerResult where
  status : Nat
  success : Option Bool := none
  error : Option String := none
  query : Option String := none
  page : Option Nat := none
  sources : Option (List SearchResultEntry) := none
  totalResults : Option Nat := none
  sourceStats : Option (List SourceStat) := none
  didSearch : Bool := false
  didVerify : Bool := false
deriving DecidableEq, Repr

/-- The POST handler of the search API route (src/unnamed/part_002), with the
two absent collaborators passed in: validation, `getSourceById` resolution,
parallel search, availability check with cap 8, grouping by source and the
statistics. The oracles are total functions, so only `request.json()` reaches
the outer catch. -/
def POST (searchVideos : String → List Source → Nat → List SearchResultEntry)
    (checkMultipleVideos : List Video → Nat → List Video)
    (req : Request) : HandlerResult :=
  match req with
  | .parseFail msg =>
    { status := 500, success := some false, error := some msg }
  | .ok body =>
    if queryInvalid body.query then
      { status := 400, error := some "Invalid or missing query parameter" }
    else if sourcesInvalid body.sources then
      { status := 400, error := some "At least one source must be specified" }
    else
      let sourceIds := jarrValue body.sources
      let sources := sourceIds.filterMap getSourceById
      if sources.isEmpty then
        { status := 400, error := some "No valid sources found" }
      else
        let q := jstrValue body.query
        let searchResults := searchVideos (jsTrim q) sources body.page
        let allVideos := (searchResults.map (fun r => r.results)).flatten
        let availableVideos := checkMultipleVideos allVideos 8
        let videosBySource := groupBySource availableVideos
        let response := videosBySource.map (fun p =>
          { source := p.1
            results := p.2
            responseTime :=
              (searchResults.find? (fun sr => sr.source == p.1)).bind
                (fun sr => sr.responseTime) : SearchResultEntry })
        let sourceStats := sourceIds.map (fun sourceId =>
          { sourceId := sourceId
            sourceName := getSourceName sourceId
            count := groupCount videosBySource sourceId : SourceStat })
        { status := 200
          success := some true
          query := some (jsTrim q)
          page := some body.page
          sources := some response
          totalResults := some availableVideos.length
          sourceStats := some sourceStats
          didSearch := true
          didVerify := true }

/-! ## Abbreviations for the success path's intermediate values -/

/-- `sources`: the requested ids resolved through the registry. -/
def resolvedSources (ids : List String) : List Source :=
  ids.filterMap getSourceById

/-- `searchResults` of the success path. -/
def searchResultsOf (search : String → List Source → Nat → List SearchResultEntry)
    (q : String) (ids : List String) (page : Nat) : List SearchResultEntry :=
  search (jsTrim q) (resolvedSources ids) page

/-- `allVideos` of the success path. -/
def allVideosOf (search : String → List Source → Nat → List SearchResultEntry)
    (q : String) (ids : List String) (page : Nat) : List Video :=
  ((searchResultsOf search q ids page).map (fun r => r.results)).flatten

/-- `availableVideos` of the success path. -/
def availableOf (search : String → List Source → Nat → List SearchResultEntry)
    (check : List Video → Nat → List Video)
    (q : String) (ids : List String) (page : Nat) : List Video :=
  check (allVideosOf search q ids page) 8

/-! ## Spec-modelled collaborators -/

/-- Modelled from the spec: `searchVideos` (lib/api/client, not among the
staged files) fans the query out to every requested source and collects one
entry per source; a failed source contributes zero results and an absent
response time (spec section 4.2). `respond` is the per-source deterministic
outcome, failure encoded as `([], none)`. -/
def searchVideosM (respond : Source → List Video × Option Nat)
    (_query : String) (sources : List Source) (_page : Nat) :
    List SearchResultEntry :=
  sources.map (fun s => ⟨s.id, (respond s).1, (respond s).2⟩)

/-- Modelled from the spec: `checkMultipleVideos` (lib/utils/source-checker,
not among the staged files) verifies every candidate and forwards exactly
those whose verdict is available, dropping the rest silently (spec section
4.4); `avail` is the deterministic verdict. The spec emits in completion
order; this model emits in submission order, and order-independence of the
response statistics is established separately (C7). -/
def checkMultipleVideosM (avail : Video → Bool)
    (videos : List Video) (_concurrency : Nat) : List Video :=
  videos.filter avail

/-! ## Derived predicates on responses and groups -/

/-- C5's invariant on a batch response: across `sources[].results` no two
entries share the (source, vod_id) pair. -/
def BatchNoDup (r : HandlerResult) : Prop :=
  (((r.sources.getD []).flatMap (fun e => e.results)).map
    (fun v => (v.source, v.vod_id))).Nodup

/-- Well-formedness of a grouping map: no empty group, every member keyed by
its own source. -/
def GroupWF (m : List (String × List Video)) : Prop :=
  ∀ p ∈ m, p.2 ≠ [] ∧ ∀ v ∈ p.2, v.source = p.1

/-- The request defects C2 enumerates: query missing, not a string, or empty
after trimming; sources missing, not an array, or empty; or no requested id
resolving through getSourceById. -/
def C2Defect (body : RequestBody) : Prop :=
  (body.query = none ∨ (∀ s, body.query ≠ some (.jstr s))
      ∨ (∃ s, body.query = some (.jstr s) ∧ jsTrim s = ""))
    ∨ (body.sources = none ∨ (∀ xs, body.sources ≠ some (.jarr xs))
      ∨ body.sources = some (.jarr []))
    ∨ (∀ id ∈ jarrValue body.sources, getSourceById id = none)

/-! ## The streamed-search client loop
(src/lib/store/search-history-store.ts, `useSearchStream.performSearch`,
lines 143-220) -/

/-- One line of the SSE body as the per-line handler sees it: lines without
the `data: ` prefix are skipped by the `startsWith` guard, lines whose
`JSON.parse` throws are skipped by the catch, and the rest carry one decoded
event. Unknown event types fall through every branch and change nothing, so
they need no constructor of their own. -/
inductive StreamLine where
  | notData
  | badJson
  | progressSearching (checkedSources : Nat)
  | progressChecking (checkedVideos totalVideos : Nat)
  | videos (vids : List Video) (checkedVideos totalVideos : Nat)
  | complete (totalVideos : Nat)
  | error (msg : String)
deriving DecidableEq, Repr

/-- The client state `performSearch` mutates while consuming the stream:
the rendered `results` (mirroring the local `allVideos`), the
`sourceVideoCounts` map, the progress counters, the `loading` flag and the
last `onCacheUpdate` payload. The per-video presentation decorations
(`sourceName`, `isNew`, `addedAt`) add no identity and are omitted from
`Video`. -/
structure ClientState where
  loading : Bool
  results : List Video
  sourceCounts : List (String × Nat)
  checkedSources : Nat
  stageChecking : Bool
  checkedVideos : Nat
  totalVideos : Nat
  cached : Option (List Video)
deriving DecidableEq, Repr

/-- `sourceVideoCounts.set(source, (get(source) || 0) + 1)`: JS Map update,
insertion-ordered. -/
def bumpCounts (counts : List (String × Nat)) (v : Video) : List (String × Nat) :=
  if counts.any (fun p => p.1 == v.source) then
    counts.map (fun p => if p.1 == v.source then (p.1, p.2 + 1) else p)
  else counts ++ [(v.source, 1)]

/-- The body of `for (const line of lines)`: each branch's state updates. In
the `error` branch the code throws `new Error(data.error)`, but the throw
happens inside the same per-line `try` whose catch (commented "Skip invalid
JSON lines") does nothing — so the state is unchanged and the loop continues
with the next line. -/
def processLine (st : ClientState) : StreamLine → ClientState
  | .notData => st
  | .badJson => st
  | .progressSearching cs => { st with stageChecking := false, checkedSources := cs }
  | .progressChecking cv tv =>
      { st with stageChecking := true, checkedVideos := cv, totalVideos := tv }
  | .videos vids cv tv =>
      { st with results := st.results ++ vids
                checkedVideos := cv
                totalVideos := tv
                sourceCounts := vids.foldl bumpCounts st.sourceCounts }
  | .complete tv =>
      { st with checkedVideos := tv, loading := false, cached := some st.results }
  | .error _ => st

/-- The client state right after `performSearch` resets it and sets
`loading` true. -/
def initClientState : ClientState :=
  { loading := true, results := [], sourceCounts := [], checkedSources := 0
    stageChecking := false, checkedVideos := 0, totalVideos := 0, cached := none }

/-- Consuming a whole sequence of decoded lines. -/
def processLines (lines : List StreamLine) : ClientState :=
  lines.foldl processLine initClientState

/-- The videos carried by one line (empty for every other event). -/
def videosPayload : StreamLine → List Video
  | .videos vids _ _ => vids
  | _ => []

/-! ## The verification scheduler as a step machine

Modelled from the spec: `checkMultipleVideos` of lib/utils/source-checker is
not among the staged files; spec section 4.4 describes a work queue with at
most `cap` concurrently running checks, each completion emitting its verdict
and admitting the next queued candidate. -/

structure SchedState where
  pending : List Video
  inFlight : List Video
  emitted : List Video
deriving DecidableEq, Repr

/-- One scheduler transition: admit the next queued candidate while below
the cap, or complete an in-flight check and emit it. -/
inductive SchedStep (cap : Nat) : SchedState → SchedState → Prop
  | enqueue (v : Video) (pending inFlight emitted : List Video) :
      inFlight.length < cap →
      SchedStep cap ⟨v :: pending, inFlight, emitted⟩ ⟨pending, v :: inFlight, emitted⟩
  | complete (v : Video) (pending inFlight emitted : List Video) :
      v ∈ inFlight →
      SchedStep cap ⟨pending, inFlight, emitted⟩
        ⟨pending, inFlight.erase v, v :: emitted⟩

/-- The states a run over some initial queue can reach. -/
inductive SchedReachable (cap : Nat) : SchedState → Prop
  | init (videos : List Video) : SchedReachable cap ⟨videos, [], []⟩
  | step (s t : SchedState) : SchedReachable cap s → SchedStep cap s t →
      SchedReachable cap t

/-! ## Concrete fixtures for instantiated runs -/

/-- A deterministic two-source search outcome. -/
def fixtureSearch : String → List Source → Nat → List SearchResultEntry :=
  fun _ _ _ =>
    [⟨"dytt", [⟨"1", "dytt"⟩], some 10⟩, ⟨"ruyi", [⟨"2", "ruyi"⟩], some 20⟩]

/-- A well-formed two-source request. -/
def fixtureReq : Request :=
  .ok ⟨some (.jstr "m"), some (.jarr ["dytt", "ruyi"]), 1⟩

/-- The two verified candidates in one completion order. -/
def fixtureOut₁ : List Video := [⟨"1", "dytt"⟩, ⟨"2", "ruyi"⟩]

/-- The same verified candidates in the other completion order. -/
def fixtureOut₂ : List Video := [⟨"2", "ruyi"⟩, ⟨"1", "dytt"⟩]

-- ===== definitions above, theorems below =====

theorem historyInv_nil : HistoryInv [] := by
  constructor
  · simp [MAX_SEARCH_HISTORY]
  · simp

theorem historyInv_add (q : String) (now : Nat) (s : List SearchHistoryItem)
    (h : HistoryInv s) : HistoryInv (addSearchHistory q now s) := by
  unfold addSearchHistory
  by_cases hq : jsTrim q = ""
  · simpa [hq] using h
  · rw [if_neg hq]
    constructor
    · exact List.length_take_le _ _
    · apply List.Nodup.sublist ((List.take_sublist _ _).map _)
      simp only [List.map_cons, List.nodup_cons]
      constructor
      · intro hmem
        rcases List.mem_map.mp hmem with ⟨item, hitem, hquery⟩
        rcases List.mem_filter.mp hitem with ⟨_, hne⟩
        simp only [decide_eq_true_eq] at hne
        exact hne hquery
      · exact List.Nodup.sublist ((List.filter_sublist _).map _) h.2

theorem historyInv_remove (q : String) (s : List SearchHistoryItem)
    (h : HistoryInv s) : HistoryInv (removeSearchHistory q s) := by
  unfold removeSearchHistory
  constructor
  · exact le_trans (List.length_filter_le _ _) h.1
  · exact List.Nodup.sublist ((List.filter_sublist _).map _) h.2

theorem historyInv_step (s : List SearchHistoryItem) (op : HistoryOp)
    (h : HistoryInv s) : HistoryInv (applyHistoryOp s op) := by
  cases op with
  | add q now => exact historyInv_add q now s h
  | remove q => exact historyInv_remove q s h
  | clear => exact historyInv_nil

theorem historyInv_foldl (ops : List HistoryOp) (s : List SearchHistoryItem)
    (h : HistoryInv s) : HistoryInv (ops.foldl applyHistoryOp s) := by
  induction ops generalizing s with
  | nil => exact h
  | cons op rest ih => exact ih _ (historyInv_step s op h)

theorem addSearchHistory_empty_trim (q : String) (now : Nat)
    (s : List SearchHistoryItem) (h : jsTrim q = "") :
    addSearchHistory q now s = s := by
  simp [addSearchHistory, h]

theorem addSearchHistory_head (q : String) (now : Nat)
    (s : List SearchHistoryItem) (h : jsTrim q ≠ "") :
    (addSearchHistory q now s).head? = some ⟨jsTrim q, now⟩ := by
  simp [addSearchHistory, h, MAX_SEARCH_HISTORY]

/-- C9: after every sequence of addSearchHistory, removeSearchHistory and
clearSearchHistory operations the history has at most 20 entries and no two
entries share a query; adding a query that trims to the empty string leaves
the list unchanged, and otherwise the trimmed query lands at index 0. -/
theorem claim_C9_history_invariant (ops : List HistoryOp) (q₁ q₂ : String)
    (now : Nat) (s₁ s₂ : List SearchHistoryItem)
    (h₁ : jsTrim q₁ = "") (h₂ : jsTrim q₂ ≠ "") :
    (runHistoryOps ops).length ≤ 20
      ∧ ((runHistoryOps ops).map (fun item => item.query)).Nodup
      ∧ addSearchHistory q₁ now s₁ = s₁
      ∧ (addSearchHistory q₂ now s₂).head? = some ⟨jsTrim q₂, now⟩ := by
  have hinv := historyInv_foldl ops [] historyInv_nil
  exact ⟨hinv.1, hinv.2, addSearchHistory_empty_trim q₁ now s₁ h₁,
    addSearchHistory_head q₂ now s₂ h₂⟩

/-- C9 witness: the invariant and both add behaviours at concrete inputs. -/
theorem claim_C9_history_invariant_witness :
    (runHistoryOps [.add "matrix" 5, .add "matrix" 7, .remove "x"]).length ≤ 20
      ∧ ((runHistoryOps [.add "matrix" 5, .add "matrix" 7, .remove "x"]).map
          (fun item => item.query)).Nodup
      ∧ addSearchHistory " " 1 [⟨"a", 0⟩] = [⟨"a", 0⟩]
      ∧ (addSearchHistory " b " 1 [⟨"a", 0⟩]).head? = some ⟨jsTrim " b ", 1⟩ :=
  claim_C9_history_invariant [.add "matrix" 5, .add "matrix" 7, .remove "x"]
    " " " b " 1 [⟨"a", 0⟩] [⟨"a", 0⟩] (by decide) (by decide)

/-- C10 counterexample: on "a$u$v" the code keeps only the text between the
first and second `$` ("u"), while the claim's "text after the dollar sign"
is "u$v". -/
theorem claim_C10_counterexample :
    parseEpisodes "a$u$v" ≠ parseEpisodesClaimed "a$u$v"
      ∧ (parseEpisodes "a$u$v").map (fun e => e.url) = ["u"]
      ∧ (parseEpisodesClaimed "a$u$v").map (fun e => e.url) = ["u$v"] := by
  decide

/-- C10 (amended): parseEpisodes returns the empty list on the empty string,
and otherwise one episode per non-empty `#`-separated segment with index i,
the name before the first `$` (or "Episode i+1" when empty) and the cleaned
url between the first and second `$`. -/
theorem claim_C10_parse_episodes (playUrl : String) :
    parseEpisodes playUrl = parseEpisodesAmended playUrl := by
  unfold parseEpisodes parseEpisodesAmended
  by_cases h : playUrl = ""
  · simp [h]
  · simp only [h, if_false, List.mapIdx_eq_enum_map]
    rfl

/-! ## Properties of the grouping loop -/

theorem insertGrouped_cons_ne (p : String × List Video)
    (rest : List (String × List Video)) (v : Video) (hp : p.1 ≠ v.source) :
    insertGrouped (p :: rest) v = p :: insertGrouped rest v := by
  unfold insertGrouped
  by_cases hany : rest.any (fun q => q.1 == v.source)
  · simp [List.any_cons, hany, hp]
  · simp [List.any_cons, hany, hp]

theorem insertGrouped_cons_eq (p : String × List Video)
    (rest : List (String × List Video)) (v : Video) (hp : p.1 = v.source)
    (hrest : v.source ∉ rest.map Prod.fst) :
    insertGrouped (p :: rest) v = (p.1, p.2 ++ [v]) :: rest := by
  unfold insertGrouped
  rw [if_pos (by simp [List.any_cons, hp])]
  simp only [List.map_cons, if_pos (show (p.1 == v.source) = true by simp [hp])]
  congr 1
  have hid : ∀ q ∈ rest, (if q.1 == v.source then (q.1, q.2 ++ [v]) else q) = q := by
    intro q hq
    rw [if_neg]
    simp only [beq_iff_eq]
    intro hqv
    exact hrest (hqv ▸ List.mem_map_of_mem Prod.fst hq)
  have := List.map_congr_left hid
  simpa using this

theorem keys_insertGrouped (m : List (String × List Video)) (v : Video) :
    (insertGrouped m v).map Prod.fst =
      if m.any (fun p => p.1 == v.source) then m.map Prod.fst
      else m.map Prod.fst ++ [v.source] := by
  unfold insertGrouped
  by_cases hany : m.any (fun p => p.1 == v.source)
  · rw [if_pos hany, if_pos hany, List.map_map]
    apply List.map_congr_left
    intro p _
    simp only [Function.comp_apply]
    split <;> rfl
  · rw [if_neg hany, if_neg hany]
    simp

theorem keysNodup_insertGrouped (m : List (String × List Video)) (v : Video)
    (h : (m.map Prod.fst).Nodup) : ((insertGrouped m v).map Prod.fst).Nodup := by
  rw [keys_insertGrouped]
  by_cases hany : m.any (fun p => p.1 == v.source)
  · rwa [if_pos hany]
  · rw [if_neg hany]
    have hnot : v.source ∉ m.map Prod.fst := by
      intro hmem
      rcases List.mem_map.mp hmem with ⟨p, hp, hkey⟩
      exact hany (List.any_eq_true.mpr ⟨p, hp, by simp [hkey]⟩)
    rw [List.nodup_append]
    exact ⟨h, List.nodup_singleton _,
      by simpa [List.disjoint_singleton] using hnot⟩

theorem groupCount_nil (sid : String) : groupCount [] sid = 0 := rfl

theorem groupCount_insertGrouped (m : List (String × List Video)) (v : Video)
    (sid : String) (h : (m.map Prod.fst).Nodup) :
    groupCount (insertGrouped m v) sid =
      groupCount m sid + (if v.source = sid then 1 else 0) := by
  induction m with
  | nil =>
    unfold insertGrouped groupCount
    by_cases hv : v.source = sid
    · simp [List.find?, hv]
    · have hbeq : (v.source == sid) = false := beq_eq_false_iff_ne.mpr hv
      simp [List.find?, hbeq, hv]
  | cons p rest ih =>
    have hrestkeys : (rest.map Prod.fst).Nodup := (List.nodup_cons.mp h).2
    by_cases hp : p.1 = v.source
    · have hrest : v.source ∉ rest.map Prod.fst :=
        fun hmem => (List.nodup_cons.mp h).1 (hp ▸ hmem)
      rw [insertGrouped_cons_eq p rest v hp hrest]
      by_cases hs : p.1 = sid
      · have hvs : v.source = sid := hp ▸ hs
        simp [groupCount, List.find?_cons, hs, hvs]
      · have hvs : v.source ≠ sid := fun hvv => hs (hp.symm ▸ hvv)
        simp [groupCount, List.find?_cons, hs, hvs]
    · rw [insertGrouped_cons_ne p rest v hp]
      by_cases hs : p.1 = sid
      · have hvs : v.source ≠ sid := fun hvv => hp (hs.trans hvv.symm)
        simp [groupCount, List.find?_cons, hs, hvs]
      · have hfind : ∀ (l : List (String × List Video)),
            groupCount (p :: l) sid = groupCount l sid := by
          intro l
          simp [groupCount, List.find?_cons, hs]
        rw [hfind, hfind, ih hrestkeys]

theorem groupCount_foldl (sid : String) (vs : List Video) :
    ∀ m, (m.map Prod.fst).Nodup →
      groupCount (vs.foldl insertGrouped m) sid
        = groupCount m sid + vs.countP (fun v => v.source == sid) := by
  induction vs with
  | nil => intro m _; simp
  | cons v vs ih =>
    intro m hm
    rw [List.foldl_cons, ih _ (keysNodup_insertGrouped m v hm),
      groupCount_insertGrouped m v sid hm, List.countP_cons]
    by_cases hv : v.source = sid
    · simp [hv]; omega
    · simp [hv]

/-- `videosBySource.get(sid)?.length || 0` counts exactly the available
videos whose source is `sid`. -/
theorem groupBySource_count (vs : List Video) (sid : String) :
    groupCount (groupBySource vs) sid = vs.countP (fun v => v.source == sid) := by
  have := groupCount_foldl sid vs [] (by simp)
  simpa [groupBySource, groupCount_nil] using this

theorem flat_insertGrouped (m : List (String × List Video)) (v : Video)
    (h : (m.map Prod.fst).Nodup) :
    List.Perm ((insertGrouped m v).flatMap (fun p => p.2))
      (v :: m.flatMap (fun p => p.2)) := by
  induction m with
  | nil => simp [insertGrouped]
  | cons p rest ih =>
    have hrestkeys : (rest.map Prod.fst).Nodup := (List.nodup_cons.mp h).2
    by_cases hp : p.1 = v.source
    · have hrest : v.source ∉ rest.map Prod.fst :=
        fun hmem => (List.nodup_cons.mp h).1 (hp ▸ hmem)
      rw [insertGrouped_cons_eq p rest v hp hrest]
      simp only [List.flatMap_cons, List.append_assoc, List.singleton_append]
      exact List.perm_middle
    · rw [insertGrouped_cons_ne p rest v hp]
      simp only [List.flatMap_cons]
      exact (List.Perm.append_left p.2 (ih hrestkeys)).trans List.perm_middle

theorem flat_foldl (vs : List Video) :
    ∀ m, (m.map Prod.fst).Nodup →
      List.Perm ((vs.foldl insertGrouped m).flatMap (fun p => p.2))
        (m.flatMap (fun p => p.2) ++ vs) := by
  induction vs with
  | nil => intro m _; simp
  | cons v vs ih =>
    intro m hm
    rw [List.foldl_cons]
    refine (ih _ (keysNodup_insertGrouped m v hm)).trans ?_
    refine (List.Perm.append_right vs (flat_insertGrouped m v hm)).trans ?_
    exact List.perm_middle.symm

/-- The grouped entries, flattened, are a permutation of the grouped input. -/
theorem groupBySource_flat_perm (vs : List Video) :
    List.Perm ((groupBySource vs).flatMap (fun p => p.2)) vs := by
  have := flat_foldl vs [] (by simp)
  simpa [groupBySource] using this

/-! ## C1: the error event does not terminate the client loop -/

/-- C1: an `error` event does not terminate the client's stream processing.
The `throw new Error(data.error)` of the error branch lands in the same
per-line catch that skips invalid JSON, so the state is unchanged and the
loop keeps consuming: a `videos` line after the error line still grows the
accumulated results, and the run stays `loading` instead of ending in a
failed state. This evaluates the loop at the claim's failing input. -/
theorem claim_C1_error_event_swallowed :
    (processLines [.error "Search failed", .videos [⟨"1", "dytt"⟩] 1 1]).results
        = [⟨"1", "dytt"⟩]
      ∧ (processLines [.error "Search failed", .videos [⟨"1", "dytt"⟩] 1 1]).loading
        = true := by
  decide

/-! ## C2, C3: validation and the failure shape -/

theorem queryInvalid_false (q : Option JValue) (h : queryInvalid q = false) :
    ∃ s, q = some (.jstr s) ∧ jsTrim s ≠ "" := by
  match q with
  | none => simp [queryInvalid, isFalsy] at h
  | some .jnull => simp [queryInvalid, isFalsy] at h
  | some (.jbool b) => simp [queryInvalid, isFalsy, isJStr] at h
  | some (.jnum n) => simp [queryInvalid, isFalsy, isJStr] at h
  | some (.jarr xs) => simp [queryInvalid, isFalsy, isJStr] at h
  | some (.jstr s) =>
    refine ⟨s, rfl, ?_⟩
    simp [queryInvalid, isFalsy, isJStr, jstrValue] at h
    exact h.2

theorem sourcesInvalid_false (s : Option JValue) (h : sourcesInvalid s = false) :
    ∃ xs, s = some (.jarr xs) ∧ xs ≠ [] := by
  match s with
  | none => simp [sourcesInvalid, isFalsy] at h
  | some .jnull => simp [sourcesInvalid, isFalsy] at h
  | some (.jbool b) => simp [sourcesInvalid, isFalsy, isJArr] at h
  | some (.jnum n) => simp [sourcesInvalid, isFalsy, isJArr] at h
  | some (.jstr t) => simp [sourcesInvalid, isFalsy, isJArr] at h
  | some (.jarr xs) =>
    refine ⟨xs, rfl, ?_⟩
    simp [sourcesInvalid, isFalsy, isJArr, jarrValue] at h
    exact h

/-- C2: a structurally defective request — query missing, not a string or
trim-empty; sources missing, not an array or empty; or no id resolving — is
answered 400 before any search or availability check runs. -/
theorem claim_C2_invalid_request
    (search : String → List Source → Nat → List SearchResultEntry)
    (check : List Video → Nat → List Video) (body : RequestBody)
    (h : C2Defect body) :
    (POST search check (.ok body)).status = 400
      ∧ (POST search check (.ok body)).didSearch = false
      ∧ (POST search check (.ok body)).didVerify = false := by
  unfold POST
  by_cases hq : queryInvalid body.query = true
  · simp [hq]
  · have hq' : queryInvalid body.query = false := by simpa using hq
    obtain ⟨s, hqs, hstrim⟩ := queryInvalid_false body.query hq'
    by_cases hsrc : sourcesInvalid body.sources = true
    · simp [hq', hsrc]
    · have hsrc' : sourcesInvalid body.sources = false := by simpa using hsrc
      obtain ⟨xs, hsx, hxs⟩ := sourcesInvalid_false body.sources hsrc'
      have hall : ∀ id ∈ jarrValue body.sources, getSourceById id = none := by
        rcases h with (h0 | h0 | ⟨t, ht, httrim⟩) | (h0 | h0 | h0) | hres
        · rw [h0] at hqs; cases hqs
        · exact absurd hqs (h0 s)
        · rw [hqs] at ht
          cases ht
          exact absurd httrim hstrim
        · rw [h0] at hsx; cases hsx
        · exact absurd hsx (h0 xs)
        · rw [h0] at hsx
          cases hsx
          exact absurd rfl hxs
        · exact hres
      have hempty : (jarrValue body.sources).filterMap getSourceById = [] := by
        rw [List.filterMap_eq_nil_iff]
        exact hall
      simp [hq', hsrc', hempty]

/-- C2 witness: a request with no query at all. -/
theorem claim_C2_invalid_request_witness :
    (POST (fun _ _ _ => []) (fun _ _ => []) (.ok ⟨none, none, 1⟩)).status = 400
      ∧ (POST (fun _ _ _ => []) (fun _ _ => []) (.ok ⟨none, none, 1⟩)).didSearch
          = false
      ∧ (POST (fun _ _ _ => []) (fun _ _ => []) (.ok ⟨none, none, 1⟩)).didVerify
          = false :=
  claim_C2_invalid_request (fun _ _ _ => []) (fun _ _ => []) ⟨none, none, 1⟩
    (Or.inl (Or.inl rfl))

/-- Every POST response is one of the three record shapes: the catch's 500,
a validation 400, or the success 200. -/
theorem POST_cases (search : String → List Source → Nat → List SearchResultEntry)
    (check : List Video → Nat → List Video) (req : Request) :
    ((POST search check req).status = 500
        ∧ (POST search check req).success = some false
        ∧ ((POST search check req).error).isSome = true)
      ∨ ((POST search check req).status = 400
        ∧ (POST search check req).success = none
        ∧ ((POST search check req).error).isSome = true)
      ∨ ((POST search check req).status = 200
        ∧ (POST search check req).success = some true) := by
  cases req with
  | parseFail msg => exact Or.inl ⟨rfl, rfl, rfl⟩
  | ok body =>
    unfold POST
    by_cases hq : queryInvalid body.query = true
    · refine Or.inr (Or.inl ?_)
      simp [hq]
    · by_cases hs : sourcesInvalid body.sources = true
      · refine Or.inr (Or.inl ?_)
        simp [hq, hs]
      · by_cases he : ((jarrValue body.sources).filterMap getSourceById).isEmpty = true
        · refine Or.inr (Or.inl ?_)
          simp [hq, hs, he]
        · refine Or.inr (Or.inr ?_)
          simp [hq, hs, he]

/-- C3 counterexample: a validation failure (missing query) answers 400 with
body `{ error }` only — there is no `success: false` field, against the
claimed failure shape. -/
theorem claim_C3_counterexample :
    (POST (fun _ _ _ => []) (fun _ _ => []) (.ok ⟨none, none, 1⟩)).status = 400
      ∧ (POST (fun _ _ _ => []) (fun _ _ => []) (.ok ⟨none, none, 1⟩)).success = none
      ∧ (POST (fun _ _ _ => []) (fun _ _ => []) (.ok ⟨none, none, 1⟩)).error
          = some "Invalid or missing query parameter" := by
  decide

/-- C3 (amended): every failing request is answered with status 400 or 500
(never 2xx) and a string `error` field; the `success: false` field is
present exactly on the internal-error path (500) and absent on validation
failures (400). -/
theorem claim_C3_failure_shape
    (search : String → List Source → Nat → List SearchResultEntry)
    (check : List Video → Nat → List Video) (req : Request)
    (h : ¬(200 ≤ (POST search check req).status
        ∧ (POST search check req).status < 300)) :
    ((POST search check req).status = 400 ∨ (POST search check req).status = 500)
      ∧ ((POST search check req).error).isSome = true
      ∧ ((POST search check req).status = 500 →
          (POST search check req).success = some false)
      ∧ ((POST search check req).status = 400 →
          (POST search check req).success = none) := by
  rcases POST_cases search check req with ⟨h5, hsucc, herr⟩ | ⟨h4, hsucc, herr⟩
    | ⟨h2, _⟩
  · exact ⟨Or.inr h5, herr, fun _ => hsucc, fun h4 => by omega⟩
  · exact ⟨Or.inl h4, herr, fun h5 => by omega, fun _ => hsucc⟩
  · exact absurd ⟨by omega, by omega⟩ h

/-- C3 witness: a request whose body fails to parse. -/
theorem claim_C3_failure_shape_witness :
    (((POST (fun _ _ _ => []) (fun _ _ => []) (.parseFail "boom")).status = 400
        ∨ (POST (fun _ _ _ => []) (fun _ _ => []) (.parseFail "boom")).status = 500)
      ∧ (((POST (fun _ _ _ => []) (fun _ _ => []) (.parseFail "boom")).error).isSome
          = true)
      ∧ ((POST (fun _ _ _ => []) (fun _ _ => []) (.parseFail "boom")).status = 500 →
          (POST (fun _ _ _ => []) (fun _ _ => []) (.parseFail "boom")).success
            = some false)
      ∧ ((POST (fun _ _ _ => []) (fun _ _ => []) (.parseFail "boom")).status = 400 →
          (POST (fun _ _ _ => []) (fun _ _ => []) (.parseFail "boom")).success
            = none)) :=
  claim_C3_failure_shape (fun _ _ _ => []) (fun _ _ => []) (.parseFail "boom")
    (by decide)

/-! ## C4: the success response -/

/-- The success path of POST as one record equation. -/
theorem POST_ok_success (search : String → List Source → Nat → List SearchResultEntry)
    (check : List Video → Nat → List Video) (q : String) (ids : List String)
    (page : Nat)
    (hq : queryInvalid (some (.jstr q)) = false)
    (hs : sourcesInvalid (some (.jarr ids)) = false)
    (hr : (resolvedSources ids).isEmpty = false) :
    POST search check (.ok ⟨some (.jstr q), some (.jarr ids), page⟩) =
      { status := 200
        success := some true
        query := some (jsTrim q)
        page := some page
        sources := some ((groupBySource (availableOf search check q ids page)).map
          (fun p => ⟨p.1, p.2,
            ((searchResultsOf search q ids page).find?
              (fun sr => sr.source == p.1)).bind (fun sr => sr.responseTime)⟩))
        totalResults := some (availableOf search check q ids page).length
        sourceStats := some (ids.map (fun sourceId =>
          ⟨sourceId, getSourceName sourceId,
            groupCount (groupBySource (availableOf search check q ids page))
              sourceId⟩))
        didSearch := true
        didVerify := true } := by
  unfold resolvedSources at hr
  unfold POST availableOf allVideosOf searchResultsOf resolvedSources
  simp [hq, hs, hr, jstrValue, jarrValue]

/-- C4: a successful run answers success = true, the trimmed query, the
count of candidates that passed verification as totalResults, and one
sourceStats entry per requested id in request order, counting the verified
candidates of that source, named by the configured display name (the id
itself when unknown). -/
theorem claim_C4_success_response
    (search : String → List Source → Nat → List SearchResultEntry)
    (check : List Video → Nat → List Video) (q : String) (ids : List String)
    (page : Nat)
    (hq : queryInvalid (some (.jstr q)) = false)
    (hs : sourcesInvalid (some (.jarr ids)) = false)
    (hr : (resolvedSources ids).isEmpty = false) :
    (POST search check (.ok ⟨some (.jstr q), some (.jarr ids), page⟩)).success
        = some true
      ∧ (POST search check (.ok ⟨some (.jstr q), some (.jarr ids), page⟩)).query
        = some (jsTrim q)
      ∧ (POST search check (.ok ⟨some (.jstr q), some (.jarr ids), page⟩)).totalResults
        = some (availableOf search check q ids page).length
      ∧ (POST search check (.ok ⟨some (.jstr q), some (.jarr ids), page⟩)).sourceStats
        = some (ids.map (fun sourceId =>
            ⟨sourceId, getSourceName sourceId,
              (availableOf search check q ids page).countP
                (fun v => v.source == sourceId)⟩)) := by
  rw [POST_ok_success search check q ids page hq hs hr]
  refine ⟨rfl, rfl, rfl, ?_⟩
  refine congrArg some (List.map_congr_left ?_)
  intro sid _
  rw [groupBySource_count]

/-- C4 witness: two requested ids, one unknown, every candidate passing. -/
theorem claim_C4_success_response_witness :
    (POST (fun _ srcs _ => srcs.map (fun s => ⟨s.id, [⟨"v1", s.id⟩], some 42⟩))
        (fun vs _ => vs)
        (.ok ⟨some (.jstr "matrix"), some (.jarr ["dytt", "unknown"]), 1⟩)).success
        = some true
      ∧ (POST (fun _ srcs _ => srcs.map (fun s => ⟨s.id, [⟨"v1", s.id⟩], some 42⟩))
          (fun vs _ => vs)
          (.ok ⟨some (.jstr "matrix"), some (.jarr ["dytt", "unknown"]), 1⟩)).query
        = some (jsTrim "matrix")
      ∧ (POST (fun _ srcs _ => srcs.map (fun s => ⟨s.id, [⟨"v1", s.id⟩], some 42⟩))
          (fun vs _ => vs)
          (.ok ⟨some (.jstr "matrix"), some (.jarr ["dytt", "unknown"]), 1⟩)).totalResults
        = some (availableOf
            (fun _ srcs _ => srcs.map (fun s => ⟨s.id, [⟨"v1", s.id⟩], some 42⟩))
            (fun vs _ => vs) "matrix" ["dytt", "unknown"] 1).length
      ∧ (POST (fun _ srcs _ => srcs.map (fun s => ⟨s.id, [⟨"v1", s.id⟩], some 42⟩))
          (fun vs _ => vs)
          (.ok ⟨some (.jstr "matrix"), some (.jarr ["dytt", "unknown"]), 1⟩)).sourceStats
        = some (["dytt", "unknown"].map (fun sourceId =>
            ⟨sourceId, getSourceName sourceId,
              (availableOf
                (fun _ srcs _ => srcs.map (fun s => ⟨s.id, [⟨"v1", s.id⟩], some 42⟩))
                (fun vs _ => vs) "matrix" ["dytt", "unknown"] 1).countP
                  (fun v => v.source == sourceId)⟩)) :=
  claim_C4_success_response
    (fun _ srcs _ => srcs.map (fun s => ⟨s.id, [⟨"v1", s.id⟩], some 42⟩))
    (fun vs _ => vs) "matrix" ["dytt", "unknown"] 1
    (by decide) (by decide) (by decide)

/-! ## C7: completion-order independence -/

/-- Flattening the response entries built from groups gives the groups'
flattened videos. -/
theorem flatMap_results_map (groups : List (String × List Video))
    (rt : String × List Video → Option Nat) :
    ((groups.map (fun p => (⟨p.1, p.2, rt p⟩ : SearchResultEntry))).flatMap
      (fun e => e.results)) = groups.flatMap (fun p => p.2) := by
  induction groups with
  | nil => rfl
  | cons p rest ih => simp only [List.map_cons, List.flatMap_cons, ih]

/-- C7 counterexample: same query, same sources, identical deterministic
verdicts, but two verification completion orders produce different response
bodies — the `sources` array follows first-seen completion order. -/
theorem claim_C7_counterexample :
    List.Perm [(⟨"1", "dytt"⟩ : Video), ⟨"2", "ruyi"⟩]
        [(⟨"2", "ruyi"⟩ : Video), ⟨"1", "dytt"⟩]
      ∧ POST (fun _ _ _ =>
            [⟨"dytt", [⟨"1", "dytt"⟩], some 10⟩, ⟨"ruyi", [⟨"2", "ruyi"⟩], some 20⟩])
          (fun _ _ => [⟨"1", "dytt"⟩, ⟨"2", "ruyi"⟩])
          (.ok ⟨some (.jstr "m"), some (.jarr ["dytt", "ruyi"]), 1⟩)
        ≠ POST (fun _ _ _ =>
            [⟨"dytt", [⟨"1", "dytt"⟩], some 10⟩, ⟨"ruyi", [⟨"2", "ruyi"⟩], some 20⟩])
          (fun _ _ => [⟨"2", "ruyi"⟩, ⟨"1", "dytt"⟩])
          (.ok ⟨some (.jstr "m"), some (.jarr ["dytt", "ruyi"]), 1⟩) := by
  decide

/-- C7 (amended): for the same request and deterministic search results,
any two verification outputs that are permutations of one another (the
completion orders of the same verdicts) yield the same status, success,
query, page, error, totalResults and sourceStats, and verified outputs that
are permutations of each other; only the internal order of the `sources`
array may differ. -/
theorem claim_C7_order_independence
    (search : String → List Source → Nat → List SearchResultEntry)
    (out₁ out₂ : List Video) (req : Request) (hperm : List.Perm out₁ out₂) :
    (POST search (fun _ _ => out₁) req).status
        = (POST search (fun _ _ => out₂) req).status
      ∧ (POST search (fun _ _ => out₁) req).success
        = (POST search (fun _ _ => out₂) req).success
      ∧ (POST search (fun _ _ => out₁) req).query
        = (POST search (fun _ _ => out₂) req).query
      ∧ (POST search (fun _ _ => out₁) req).page
        = (POST search (fun _ _ => out₂) req).page
      ∧ (POST search (fun _ _ => out₁) req).error
        = (POST search (fun _ _ => out₂) req).error
      ∧ (POST search (fun _ _ => out₁) req).totalResults
        = (POST search (fun _ _ => out₂) req).totalResults
      ∧ (POST search (fun _ _ => out₁) req).sourceStats
        = (POST search (fun _ _ => out₂) req).sourceStats
      ∧ List.Perm
          ((((POST search (fun _ _ => out₁) req).sources.getD []).flatMap
            (fun e => e.results)))
          ((((POST search (fun _ _ => out₂) req).sources.getD []).flatMap
            (fun e => e.results))) := by
  cases req with
  | parseFail msg =>
    exact ⟨rfl, rfl, rfl, rfl, rfl, rfl, rfl, List.Perm.refl _⟩
  | ok body =>
    unfold POST
    by_cases hq : queryInvalid body.query = true
    · simp [hq]
    · by_cases hs : sourcesInvalid body.sources = true
      · simp [hq, hs]
      · by_cases he : ((jarrValue body.sources).filterMap getSourceById).isEmpty
          = true
        · simp [hq, hs, he]
        · simp only [hq, hs, he, Bool.false_eq_true, if_false]
          refine ⟨trivial, trivial, trivial, trivial, trivial, ?_, ?_, ?_⟩
          · exact congrArg some hperm.length_eq
          · refine congrArg some (List.map_congr_left ?_)
            intro sid _
            rw [groupBySource_count, groupBySource_count, hperm.countP_eq]
          · simp only [Option.getD_some, flatMap_results_map]
            exact (groupBySource_flat_perm out₁).trans
              (hperm.trans (groupBySource_flat_perm out₂).symm)

/-- C7 witness: the two completion orders of the fixture verdict set. -/
theorem claim_C7_order_independence_witness :
    (POST fixtureSearch (fun _ _ => fixtureOut₁) fixtureReq).status
        = (POST fixtureSearch (fun _ _ => fixtureOut₂) fixtureReq).status
      ∧ (POST fixtureSearch (fun _ _ => fixtureOut₁) fixtureReq).success
        = (POST fixtureSearch (fun _ _ => fixtureOut₂) fixtureReq).success
      ∧ (POST fixtureSearch (fun _ _ => fixtureOut₁) fixtureReq).query
        = (POST fixtureSearch (fun _ _ => fixtureOut₂) fixtureReq).query
      ∧ (POST fixtureSearch (fun _ _ => fixtureOut₁) fixtureReq).page
        = (POST fixtureSearch (fun _ _ => fixtureOut₂) fixtureReq).page
      ∧ (POST fixtureSearch (fun _ _ => fixtureOut₁) fixtureReq).error
        = (POST fixtureSearch (fun _ _ => fixtureOut₂) fixtureReq).error
      ∧ (POST fixtureSearch (fun _ _ => fixtureOut₁) fixtureReq).totalResults
        = (POST fixtureSearch (fun _ _ => fixtureOut₂) fixtureReq).totalResults
      ∧ (POST fixtureSearch (fun _ _ => fixtureOut₁) fixtureReq).sourceStats
        = (POST fixtureSearch (fun _ _ => fixtureOut₂) fixtureReq).sourceStats
      ∧ List.Perm
          ((((POST fixtureSearch (fun _ _ => fixtureOut₁) fixtureReq).sources.getD
            []).flatMap (fun e => e.results)))
          ((((POST fixtureSearch (fun _ _ => fixtureOut₂) fixtureReq).sources.getD
            []).flatMap (fun e => e.results))) :=
  claim_C7_order_independence fixtureSearch fixtureOut₁ fixtureOut₂ fixtureReq
    (by decide)

/-! ## Helper lemmas for C5, C6 and C8 -/

theorem getSourceById_id (id : String) (s : Source)
    (h : getSourceById id = some s) : s.id = id := by
  unfold getSourceById at h
  split at h
  · cases h; rfl
  · cases h

theorem resolvedSources_ids_sublist (ids : List String) :
    ((resolvedSources ids).map (fun s => s.id)).Sublist ids := by
  induction ids with
  | nil => simp [resolvedSources]
  | cons id rest ih =>
    unfold resolvedSources at ih ⊢
    rw [List.filterMap_cons]
    cases hg : getSourceById id with
    | none => exact ih.cons id
    | some s =>
      simp only [List.map_cons]
      rw [getSourceById_id id s hg]
      exact ih.cons₂ id

theorem allVideosOf_searchVideosM (respond : Source → List Video × Option Nat)
    (q : String) (ids : List String) (page : Nat) :
    allVideosOf (searchVideosM respond) q ids page
      = (resolvedSources ids).flatMap (fun s => (respond s).1) := by
  unfold allVideosOf searchResultsOf searchVideosM
  rw [List.map_map, List.flatMap_def]
  rfl

/-- Keys of a fan-out over sources with distinct ids, each contribution keyed
by its source and duplicate-free, are duplicate-free. -/
theorem flat_keys_nodup (respond : Source → List Video × Option Nat)
    (sources : List Source)
    (hwf : ∀ s ∈ sources, ∀ v ∈ (respond s).1, v.source = s.id)
    (hvod : ∀ s ∈ sources, ((respond s).1.map (fun v => v.vod_id)).Nodup)
    (hids : (sources.map (fun s => s.id)).Nodup) :
    ((sources.flatMap (fun s => (respond s).1)).map
      (fun v => (v.source, v.vod_id))).Nodup := by
  induction sources with
  | nil => simp
  | cons s rest ih =>
    simp only [List.flatMap_cons, List.map_append]
    rw [List.nodup_append]
    refine ⟨?_, ?_, ?_⟩
    · have h1 : (respond s).1.map (fun v => (v.source, v.vod_id))
          = ((respond s).1.map (fun v => v.vod_id)).map (fun x => (s.id, x)) := by
        rw [List.map_map]
        apply List.map_congr_left
        intro v hv
        simp [hwf s (by simp) v hv]
      rw [h1]
      exact (hvod s (by simp)).map (fun a b hab => by simpa using hab)
    · exact ih (fun t ht => hwf t (by simp [ht]))
        (fun t ht => hvod t (by simp [ht]))
        (List.nodup_cons.mp (by simpa using hids)).2
    · intro a ha hb
      rcases List.mem_map.mp ha with ⟨v, hv, rfl⟩
      rcases List.mem_map.mp hb with ⟨w, hw, hkey⟩
      rcases List.mem_flatMap.mp hw with ⟨t, ht, hwt⟩
      have hvs : v.source = s.id := hwf s (by simp) v hv
      have hws : w.source = t.id := hwf t (by simp [ht]) w hwt
      have : s.id = t.id := by
        have := congrArg Prod.fst hkey
        simp only [hvs, hws] at this
        exact this.symm
      have hnot : s.id ∉ rest.map (fun u => u.id) :=
        (List.nodup_cons.mp (by simpa using hids)).1
      exact hnot (this ▸ List.mem_map_of_mem (fun u => u.id) ht)

theorem foldl_processLine_results (lines : List StreamLine) :
    ∀ st : ClientState, (lines.foldl processLine st).results
      = st.results ++ (lines.map videosPayload).flatten := by
  induction lines with
  | nil => intro st; simp
  | cons line rest ih =>
    intro st
    rw [List.foldl_cons, ih]
    cases line <;> simp [processLine, videosPayload, List.append_assoc]

theorem groupWF_insertGrouped (m : List (String × List Video)) (v : Video)
    (h : GroupWF m) : GroupWF (insertGrouped m v) := by
  intro p hp
  unfold insertGrouped at hp
  by_cases hany : m.any (fun q => q.1 == v.source) = true
  · rw [if_pos hany] at hp
    rcases List.mem_map.mp hp with ⟨q, hq, rfl⟩
    by_cases hqv : q.1 = v.source
    · rw [if_pos (by simp [hqv])]
      refine ⟨by simp, ?_⟩
      intro w hw
      rcases List.mem_append.mp hw with hw | hw
      · exact (h q hq).2 w hw
      · simp only [List.mem_singleton] at hw
        subst hw
        exact hqv.symm
    · rw [if_neg (by simp [hqv])]
      exact h q hq
  · rw [if_neg hany] at hp
    rcases List.mem_append.mp hp with hq | hq
    · exact h p hq
    · simp only [List.mem_singleton] at hq
      subst hq
      exact ⟨by simp, by simp⟩

theorem groupWF_foldl (vs : List Video) :
    ∀ m, GroupWF m → GroupWF (vs.foldl insertGrouped m) := by
  induction vs with
  | nil => intro m hm; exact hm
  | cons v vs ih =>
    intro m hm
    exact ih _ (groupWF_insertGrouped m v hm)

theorem groupWF_groupBySource (vs : List Video) : GroupWF (groupBySource vs) :=
  groupWF_foldl vs [] (fun p hp => absurd hp (List.not_mem_nil p))

theorem schedReachable_inFlight_le (cap : Nat) (s : SchedState)
    (h : SchedReachable cap s) : s.inFlight.length ≤ cap := by
  induction h with
  | init videos => simp
  | step s t hs hstep ih =>
    cases hstep with
    | enqueue v pending inFlight emitted hlt => simpa using hlt
    | complete v pending inFlight emitted hv =>
      exact le_trans ((List.erase_sublist _ _).length_le) ih

/-! ## C5: duplicate (source, vod_id) pairs -/

/-- C5 counterexample: the pipeline never deduplicates — a source answering
the same vod_id twice puts the same (source, vod_id) pair twice into the
batch response's sources[].results. -/
theorem claim_C5_counterexample :
    ¬ BatchNoDup (POST
        (searchVideosM (fun s => ([⟨"1", s.id⟩, ⟨"1", s.id⟩], some 50)))
        (checkMultipleVideosM (fun _ => true))
        (.ok ⟨some (.jstr "m"), some (.jarr ["dytt"]), 1⟩)) := by
  unfold BatchNoDup
  decide

/-- C5 (amended): provided each requested source's contribution is keyed by
that source and free of duplicate vod_ids and the requested ids are
distinct, the batch output carries no duplicate (source, vod_id) pair; and
the streamed accumulation is duplicate-free whenever the stream's videos
batches are jointly duplicate-free. -/
theorem claim_C5_no_duplicate_pairs (respond : Source → List Video × Option Nat)
    (avail : Video → Bool) (q : String) (ids : List String) (page : Nat)
    (lines : List StreamLine)
    (hwf : ∀ s ∈ resolvedSources ids, ∀ v ∈ (respond s).1, v.source = s.id)
    (hvod : ∀ s ∈ resolvedSources ids,
      ((respond s).1.map (fun v => v.vod_id)).Nodup)
    (hids : ids.Nodup)
    (hstream : (((lines.map videosPayload).flatten).map
      (fun v => (v.source, v.vod_id))).Nodup) :
    BatchNoDup (POST (searchVideosM respond) (checkMultipleVideosM avail)
        (.ok ⟨some (.jstr q), some (.jarr ids), page⟩))
      ∧ (((processLines lines).results).map
          (fun v => (v.source, v.vod_id))).Nodup := by
  constructor
  · by_cases hq : queryInvalid (some (.jstr q)) = true
    · unfold POST
      simp [hq, BatchNoDup]
    · by_cases hsrc : sourcesInvalid (some (.jarr ids)) = true
      · unfold POST
        simp [hq, hsrc, BatchNoDup]
      · by_cases he : (resolvedSources ids).isEmpty = true
        · unfold POST
          unfold resolvedSources at he
          simp [hq, hsrc, he, jarrValue, BatchNoDup]
        · rw [POST_ok_success (searchVideosM respond) (checkMultipleVideosM avail)
            q ids page (by simpa using hq) (by simpa using hsrc)
            (by simpa using he)]
          unfold BatchNoDup
          simp only [Option.getD_some, flatMap_results_map]
          have hperm := groupBySource_flat_perm
            (availableOf (searchVideosM respond) (checkMultipleVideosM avail)
              q ids page)
          have hall : ((allVideosOf (searchVideosM respond) q ids page).map
              (fun v => (v.source, v.vod_id))).Nodup := by
            rw [allVideosOf_searchVideosM]
            exact flat_keys_nodup respond (resolvedSources ids) hwf hvod
              ((resolvedSources_ids_sublist ids).nodup hids)
          have havail : ((availableOf (searchVideosM respond)
              (checkMultipleVideosM avail) q ids page).map
              (fun v => (v.source, v.vod_id))).Nodup := by
            unfold availableOf checkMultipleVideosM
            exact hall.sublist ((List.filter_sublist _).map _)
          exact ((hperm.map _).nodup_iff).mpr havail
  · unfold processLines
    rw [foldl_processLine_results lines initClientState]
    simpa [initClientState] using hstream

/-- C5 witness: one source, one video, a stream with one videos batch. -/
theorem claim_C5_no_duplicate_pairs_witness :
    BatchNoDup (POST (searchVideosM (fun s => ([⟨"1", s.id⟩], some 10)))
        (checkMultipleVideosM (fun _ => true))
        (.ok ⟨some (.jstr "m"), some (.jarr ["dytt"]), 1⟩))
      ∧ (((processLines [.videos [⟨"1", "dytt"⟩] 1 1, .complete 1]).results).map
          (fun v => (v.source, v.vod_id))).Nodup :=
  claim_C5_no_duplicate_pairs (fun s => ([⟨"1", s.id⟩], some 10))
    (fun _ => true) "m" ["dytt"] 1 [.videos [⟨"1", "dytt"⟩] 1 1, .complete 1]
    (by decide) (by decide) (by decide) (by decide)

/-! ## C6: the verification concurrency cap -/

/-- C6: in the scheduler modelled from the spec no reachable state holds
more than 8 in-flight checks, and the handler's result depends on the
checker only at concurrency 8 — the literal POST passes to
checkMultipleVideos. -/
theorem claim_C6_concurrency_cap (s : SchedState)
    (search : String → List Source → Nat → List SearchResultEntry)
    (c₁ c₂ : List Video → Nat → List Video) (req : Request)
    (hreach : SchedReachable 8 s)
    (hcap : ∀ vs, c₁ vs 8 = c₂ vs 8) :
    s.inFlight.length ≤ 8 ∧ POST search c₁ req = POST search c₂ req := by
  refine ⟨schedReachable_inFlight_le 8 s hreach, ?_⟩
  cases req with
  | parseFail msg => rfl
  | ok body =>
    unfold POST
    by_cases hq : queryInvalid body.query = true
    · simp [hq]
    · by_cases hsrc : sourcesInvalid body.sources = true
      · simp [hq, hsrc]
      · by_cases he : ((jarrValue body.sources).filterMap getSourceById).isEmpty
          = true
        · simp [hq, hsrc, he]
        · simp only [hq, hsrc, he, Bool.false_eq_true, if_false]
          rw [hcap]

/-- C6 witness: the empty run and equal checkers. -/
theorem claim_C6_concurrency_cap_witness :
    (⟨[], [], []⟩ : SchedState).inFlight.length ≤ 8
      ∧ POST (fun _ _ _ => []) (fun _ _ => []) (.parseFail "x")
        = POST (fun _ _ _ => []) (fun _ _ => []) (.parseFail "x") :=
  claim_C6_concurrency_cap ⟨[], [], []⟩ (fun _ _ _ => []) (fun _ _ => [])
    (fun _ _ => []) (.parseFail "x") (SchedReachable.init []) (fun _ => rfl)

/-! ## C8: a failed source is swallowed -/

/-- C8: with the fan-out modelled from the spec, a source whose request
fails (`respond = ([], none)`) contributes zero candidates — its
sourceStats count is 0 and no sources[] entry (hence no response time)
carries its id — no error is raised, and the run still answers 200 with
success true, carrying the other sources' results. -/
theorem claim_C8_failed_source (respond : Source → List Video × Option Nat)
    (avail : Video → Bool) (q : String) (ids : List String) (page : Nat)
    (fid : String)
    (hq : queryInvalid (some (.jstr q)) = false)
    (hsrc : sourcesInvalid (some (.jarr ids)) = false)
    (hr : (resolvedSources ids).isEmpty = false)
    (hfail : ∀ s ∈ resolvedSources ids, s.id = fid → respond s = ([], none))
    (hwf : ∀ s ∈ resolvedSources ids, ∀ v ∈ (respond s).1, v.source = s.id) :
    (POST (searchVideosM respond) (checkMultipleVideosM avail)
        (.ok ⟨some (.jstr q), some (.jarr ids), page⟩)).status = 200
      ∧ (POST (searchVideosM respond) (checkMultipleVideosM avail)
          (.ok ⟨some (.jstr q), some (.jarr ids), page⟩)).success = some true
      ∧ (POST (searchVideosM respond) (checkMultipleVideosM avail)
          (.ok ⟨some (.jstr q), some (.jarr ids), page⟩)).error = none
      ∧ (∀ st ∈ ((POST (searchVideosM respond) (checkMultipleVideosM avail)
          (.ok ⟨some (.jstr q), some (.jarr ids), page⟩)).sourceStats.getD []),
            st.sourceId = fid → st.count = 0)
      ∧ (∀ e ∈ ((POST (searchVideosM respond) (checkMultipleVideosM avail)
          (.ok ⟨some (.jstr q), some (.jarr ids), page⟩)).sources.getD []),
            e.source ≠ fid) := by
  have hnofid : ∀ v ∈ availableOf (searchVideosM respond)
      (checkMultipleVideosM avail) q ids page, v.source ≠ fid := by
    intro v hv hvf
    have hvall : v ∈ allVideosOf (searchVideosM respond) q ids page :=
      List.mem_of_mem_filter hv
    rw [allVideosOf_searchVideosM] at hvall
    rcases List.mem_flatMap.mp hvall with ⟨s, hsmem, hvs⟩
    have hsid : s.id = fid := (hwf s hsmem v hvs) ▸ hvf
    have := hfail s hsmem hsid
    rw [this] at hvs
    exact absurd hvs (List.not_mem_nil v)
  rw [POST_ok_success (searchVideosM respond) (checkMultipleVideosM avail)
    q ids page hq hsrc hr]
  refine ⟨rfl, rfl, rfl, ?_, ?_⟩
  · intro st hst hstid
    simp only [Option.getD_some] at hst
    rcases List.mem_map.mp hst with ⟨sid, hsid, rfl⟩
    simp only at hstid ⊢
    subst hstid
    rw [groupBySource_count]
    rw [List.countP_eq_zero]
    intro v hv
    simpa using hnofid v hv
  · intro e he hef
    simp only [Option.getD_some] at he
    rcases List.mem_map.mp he with ⟨p, hp, rfl⟩
    simp only at hef
    have hWF := groupWF_groupBySource
      (availableOf (searchVideosM respond) (checkMultipleVideosM avail)
        q ids page) p hp
    rcases hWF with ⟨hne, hkeyed⟩
    rcases List.exists_mem_of_ne_nil p.2 hne with ⟨v, hv⟩
    have hvgrp : v ∈ (groupBySource (availableOf (searchVideosM respond)
        (checkMultipleVideosM avail) q ids page)).flatMap (fun p => p.2) :=
      List.mem_flatMap.mpr ⟨p, hp, hv⟩
    have hvavail : v ∈ availableOf (searchVideosM respond)
        (checkMultipleVideosM avail) q ids page :=
      (groupBySource_flat_perm _).mem_iff.mp hvgrp
    exact hnofid v hvavail ((hkeyed v hv).trans hef)

/-- C8 witness: two sources, "ruyi" failing, every candidate passing. -/
theorem claim_C8_failed_source_witness :
    (POST (searchVideosM (fun s =>
          if s.id == "ruyi" then ([], none) else ([⟨"1", s.id⟩], some 10)))
        (checkMultipleVideosM (fun _ => true))
        (.ok ⟨some (.jstr "m"), some (.jarr ["dytt", "ruyi"]), 1⟩)).status = 200
      ∧ (POST (searchVideosM (fun s =>
          if s.id == "ruyi" then ([], none) else ([⟨"1", s.id⟩], some 10)))
        (checkMultipleVideosM (fun _ => true))
        (.ok ⟨some (.jstr "m"), some (.jarr ["dytt", "ruyi"]), 1⟩)).success
          = some true
      ∧ (POST (searchVideosM (fun s =>
          if s.id == "ruyi" then ([], none) else ([⟨"1", s.id⟩], some 10)))
        (checkMultipleVideosM (fun _ => true))
        (.ok ⟨some (.jstr "m"), some (.jarr ["dytt", "ruyi"]), 1⟩)).error = none
      ∧ (∀ st ∈ ((POST (searchVideosM (fun s =>
          if s.id == "ruyi" then ([], none) else ([⟨"1", s.id⟩], some 10)))
        (checkMultipleVideosM (fun _ => true))
        (.ok ⟨some (.jstr "m"), some (.jarr ["dytt", "ruyi"]), 1⟩)).sourceStats.getD []),
            st.sourceId = "ruyi" → st.count = 0)
      ∧ (∀ e ∈ ((POST (searchVideosM (fun s =>
          if s.id == "ruyi" then ([], none) else ([⟨"1", s.id⟩], some 10)))
        (checkMultipleVideosM (fun _ => true))
        (.ok ⟨some (.jstr "m"), some (.jarr ["dytt", "ruyi"]), 1⟩)).sources.getD []),
            e.source ≠ "ruyi") :=
  claim_C8_failed_source
    (fun s => if s.id == "ruyi" then ([], none) else ([⟨"1", s.id⟩], some 10))
    (fun _ => true) "m" ["dytt", "ruyi"] 1 "ruyi"
    (by decide) (by decide) (by decide) (by decide) (by decide)

end KVideo
